import Mathlib

/-!
# SimpleParticleSystem: the per-frame spawn / update / compaction loops of `main.c`

A shallow embedding of `src/main.c`.

* `float` values are rationals (`ℚ`); infinities and NaN are not modelled. The physics step
  and the spawn expressions are taken in exact arithmetic. The two stores into `positions`
  (lines 262-263) round as the C expressions do: the division and the product to binary32,
  the sum to binary64, the stored value to binary32 (`float32`, `float64`).
* `Uint32` values are naturals reduced modulo `2^32`; `size_t` and `long long` values are
  `Nat` and `Int` (the subtraction `particle_count-1` is checked, see `Fault.underflow`;
  `life` is unbounded, signed overflow of a `long long` is not modelled).
* `memory_block` is two index-to-value maps, `positions` (of `2 * MAX_PARTICLES` floats) and
  `particles` (of `MAX_PARTICLES` records). Every read and write of the loops goes through a
  checked accessor that fails with `Fault.outOfBounds` outside the allocated range.
* `rand()` is a stream `rand : Nat → Nat` of the values it returns, read at `rand_calls`.
* The `for` loops recurse structurally on the number of iterations left.
-/

namespace SimpleParticleSystem

/-! ## Constants (`main.c` lines 10-16) -/

def MAX_PARTICLES : Nat := 40768
def SPAWN_PARTICLE_AMOUNT : Nat := 128
def SPAWN_PARTICLE_BURST_AMOUNT : Nat := 512
def PARTICLE_DEFAULT_LIFE : Nat := 2000

def SCREEN_WIDTH : Nat := 1280
def SCREEN_HEIGHT : Nat := 720

/-- The record `particle_t` (`main.c` lines 18-26). -/
structure Particle where
  x : ℚ
  y : ℚ
  dx : ℚ
  dy : ℚ
  life : Int
  deriving DecidableEq

/-- What can stop the embedded code short of a result. -/
inductive Fault where
  /-- an index outside the block allocated at lines 143-155 -/
  | outOfBounds
  /-- the `size_t` subtraction `particle_count-1` taken at `particle_count = 0` -/
  | underflow
  /-- the iteration budget handed to a loop of the model was used up -/
  | outOfFuel
  deriving DecidableEq

/-- The local variables of `main` that the frame code reads and writes, together with the
two arrays carved out of `memory_block`. -/
structure State where
  particle_count : Nat
  positions : Nat → ℚ
  particles : Nat → Particle
  running : Bool
  current_time : Nat
  last_time : Nat
  dt : ℚ
  clicked_l : Bool
  clicked_r : Bool
  mouse_x : Int
  mouse_y : Int
  /-- the number of calls of `rand()` made so far -/
  rand_calls : Nat
  /-- the points drawn by the last `glDrawArrays` -/
  screen : List (ℚ × ℚ)

/-! ## Checked array accesses -/

/-- Read of `particles[i]`. -/
def getParticle (particles : Nat → Particle) (i : Nat) : Except Fault Particle :=
  if i < MAX_PARTICLES then .ok (particles i) else .error .outOfBounds

/-- Write of `particles[i]`. -/
def setParticle (particles : Nat → Particle) (i : Nat) (p : Particle) :
    Except Fault (Nat → Particle) :=
  if i < MAX_PARTICLES then .ok (Function.update particles i p) else .error .outOfBounds

/-- Read of `positions[k]`. -/
def getPosition (positions : Nat → ℚ) (k : Nat) : Except Fault ℚ :=
  if k < MAX_PARTICLES * 2 then .ok (positions k) else .error .outOfBounds

/-- Write of `positions[k]`. -/
def setPosition (positions : Nat → ℚ) (k : Nat) (v : ℚ) : Except Fault (Nat → ℚ) :=
  if k < MAX_PARTICLES * 2 then .ok (Function.update positions k v) else .error .outOfBounds

/-- The `size_t` value `particle_count-1`. -/
def pred_count (particle_count : Nat) : Except Fault Nat :=
  if 1 ≤ particle_count then .ok (particle_count - 1) else .error .underflow

/-- Subtraction of two `Uint32` values. -/
def u32_sub (a b : Nat) : Nat := (a + 4294967296 - b % 4294967296) % 4294967296

/-! ## Spawn New Particles (`main.c` lines 195-231) -/

/-- One pass through the body of a spawn loop (lines 204-211, 222-229) once the `break` test
has failed. The two loops differ in the expression for `dy` only, given as `dy_of`
applied to the value of its `rand()` call. -/
def spawnOne (rand : Nat → Nat) (dy_of : Nat → ℚ) (s : State) : Except Fault State := do
  let p ← getParticle s.particles s.particle_count
  let ps ← setParticle s.particles s.particle_count { p with x := (s.mouse_x : ℚ) }
  let p ← getParticle ps s.particle_count
  let ps ← setParticle ps s.particle_count { p with y := (s.mouse_y : ℚ) }
  let r1 := rand s.rand_calls
  let p ← getParticle ps s.particle_count
  let ps ← setParticle ps s.particle_count
    { p with dx := -200 + ((r1 % 40000 : Nat) : ℚ) / 100 }
  let r2 := rand (s.rand_calls + 1)
  let p ← getParticle ps s.particle_count
  let ps ← setParticle ps s.particle_count { p with dy := dy_of r2 }
  let r3 := rand (s.rand_calls + 2)
  let p ← getParticle ps s.particle_count
  let ps ← setParticle ps s.particle_count
    { p with life := ((PARTICLE_DEFAULT_LIFE + r3 % PARTICLE_DEFAULT_LIFE : Nat) : Int) }
  pure { s with particles := ps, particle_count := s.particle_count + 1,
                rand_calls := s.rand_calls + 3 }

/-- The loop `for( i = 0; i < amount; ++i )` of lines 199-212 and 217-230, with `left`
iterations still to run. -/
def spawnLoop (rand : Nat → Nat) (dy_of : Nat → ℚ) : Nat → State → Except Fault State
  | 0, s => .ok s
  | left + 1, s =>
    if s.particle_count ≥ MAX_PARTICLES then .ok s
    else do
      let s1 ← spawnOne rand dy_of s
      spawnLoop rand dy_of left s1

/-- The `dy` of a particle spawned with the left button (line 207). -/
def dy_left (r : Nat) : ℚ := -800 - ((r % 80000 : Nat) : ℚ) / 100

/-- The `dy` of a particle spawned with the right button (line 225). -/
def dy_right (r : Nat) : ℚ := -600 + ((r % 80000 : Nat) : ℚ) / 100

/-- The block `if ( clicked_l ) { ... }` (lines 196-213). -/
def spawnLeft (rand : Nat → Nat) (s : State) : Except Fault State :=
  if s.clicked_l then spawnLoop rand dy_left SPAWN_PARTICLE_AMOUNT s else .ok s

/-- The block `if ( clicked_r ) { ... }` (lines 214-231). -/
def spawnRight (rand : Nat → Nat) (s : State) : Except Fault State :=
  if s.clicked_r then spawnLoop rand dy_right SPAWN_PARTICLE_BURST_AMOUNT s else .ok s

/-- Both spawn blocks in sequence (lines 195-231). -/
def spawn (rand : Nat → Nat) (s : State) : Except Fault State := do
  let s1 ← spawnLeft rand s
  spawnRight rand s1

/-! ## Find Delta Time (`main.c` lines 233-236) -/

/-- The three assignments of lines 234-236; `ticks` is the value of `SDL_GetTicks()`. -/
def findDeltaTime (ticks : Nat) (s : State) : State :=
  let current_time := ticks % 4294967296
  let dt := ((u32_sub current_time s.last_time : Nat) : ℚ) / 1000
  { s with current_time := current_time, dt := dt, last_time := current_time }

/-! ## Update Particles (`main.c` lines 238-268) -/

def GRAVITY : ℚ := 1000

/-- The four assignments of lines 243-246 on one record. -/
def stepParticle (current_time last_time : Nat) (dt : ℚ) (p : Particle) : Particle :=
  let p := { p with life := p.life - ((u32_sub current_time last_time : Nat) : Int) }
  let p := { p with dy := p.dy + GRAVITY * dt }
  let p := { p with x := p.x + p.dx * dt }
  { p with y := p.y + p.dy * dt }

/-- The condition of the `if` of lines 248-252 (line 250 is commented out in the source). -/
def cull (p : Particle) : Prop :=
  p.life ≤ 0 ∨ p.x ≤ 0 ∨ p.x ≥ (SCREEN_WIDTH : ℚ) ∨ p.y ≥ (SCREEN_HEIGHT : ℚ)

instance (p : Particle) : Decidable (cull p) :=
  inferInstanceAs (Decidable (_ ∨ _ ∨ _ ∨ _))

/-- The assignments of lines 243-246 on `particles[i]` in place. -/
def integrate (s : State) (i : Nat) : Except Fault State := do
  let p ← getParticle s.particles i
  let ps ← setParticle s.particles i
    { p with life := p.life - ((u32_sub s.current_time s.last_time : Nat) : Int) }
  let p ← getParticle ps i
  let ps ← setParticle ps i { p with dy := p.dy + GRAVITY * s.dt }
  let p ← getParticle ps i
  let ps ← setParticle ps i { p with x := p.x + p.dx * s.dt }
  let p ← getParticle ps i
  let ps ← setParticle ps i { p with y := p.y + p.dy * s.dt }
  pure { s with particles := ps }

/-- The removal branch of lines 254-259: slot `i` takes the record and the two floats of the
last slot and `particle_count` goes down by one; `i` stays. -/
def removeAt (s : State) (i : Nat) : Except Fault State := do
  let last ← pred_count s.particle_count
  let q ← getParticle s.particles last
  let ps ← setParticle s.particles i q
  let last ← pred_count s.particle_count
  let a ← getPosition s.positions (last * 2)
  let pos ← setPosition s.positions (i * 2) a
  let last ← pred_count s.particle_count
  let b ← getPosition pos (last * 2 + 1)
  let pos ← setPosition pos (i * 2 + 1) b
  let last ← pred_count s.particle_count
  pure { s with particles := ps, positions := pos, particle_count := last }

/-- Rounding of a rational to the nearest integer, ties to the even one. -/
def roundHalfEven (q : ℚ) : Int :=
  if q - ⌊q⌋ < 1 / 2 then ⌊q⌋
  else if 1 / 2 < q - ⌊q⌋ then ⌊q⌋ + 1
  else if ⌊q⌋ % 2 = 0 then ⌊q⌋ else ⌊q⌋ + 1

/-- Rounding to the nearest binary floating-point value with a significand of `p` bits and
least normal exponent `emin`, ties to even (the IEEE 754 default): the value is rounded to
a multiple of `2^(e-p+1)`, `e` the binary exponent of `q`, and to a multiple of
`2^(emin-p+1)` in the subnormal range. Overflow to infinity is not modelled. -/
def roundFloat (p emin : Int) (q : ℚ) : ℚ :=
  if q = 0 then 0
  else
    let k : Int := max (Int.log 2 |q| - (p - 1)) (emin - (p - 1))
    (roundHalfEven (q / 2 ^ k) : ℚ) * 2 ^ k

/-- Rounding to `float` (binary32). -/
def float32 (q : ℚ) : ℚ := roundFloat 24 (-126) q

/-- Rounding to `double` (binary64). -/
def float64 (q : ℚ) : ℚ := roundFloat 53 (-1022) q

/-- The two writes of lines 262-263 for the particle kept in slot `i`. In each, the
division by `(float)SCREEN_WIDTH` and the product with `2` are `float` operations, the sum
with `-1.0` (and the negation) is a `double` operation and the store converts to
`GLfloat`. -/
def writePosition (s : State) (i : Nat) : Except Fault State := do
  let p ← getParticle s.particles i
  let pos ← setPosition s.positions (i * 2)
    (float32 (float64 (-1 + float32 (float32 (p.x / (SCREEN_WIDTH : ℚ)) * 2))))
  let p ← getParticle s.particles i
  let pos ← setPosition pos (i * 2 + 1)
    (float32 (-(float64 (-1 + float32 (float32 (p.y / (SCREEN_HEIGHT : ℚ)) * 2)))))
  pure { s with positions := pos }

/-- One pass through the body of the update loop (lines 241-267): the state after it and
the next value of `i`. -/
def updateBody (s : State) (i : Nat) : Except Fault (State × Nat) := do
  let s1 ← integrate s i
  let p ← getParticle s1.particles i
  if cull p then
    let s2 ← removeAt s1 i
    pure (s2, i)
  else
    let s2 ← writePosition s1 i
    pure (s2, i + 1)

/-- The loop `for( size_t i = 0; i < particle_count;  )` of lines 239-268 from a given `i`.
Each pass either raises `i` or lowers `particle_count`, so `particle_count - i` passes are
enough; running out of `fuel` with `i < particle_count` is reported as a fault. -/
def updateLoop : Nat → State → Nat → Except Fault State
  | 0, s, i => if i < s.particle_count then .error .outOfFuel else .ok s
  | fuel + 1, s, i =>
    if i < s.particle_count then do
      let (s1, i1) ← updateBody s i
      updateLoop fuel s1 i1
    else .ok s

/-- The update loop entered with `i = 0` (line 239). -/
def updateParticles (s : State) : Except Fault State :=
  updateLoop s.particle_count s 0

/-! ## Render (`main.c` lines 270-284) -/

/-- The floats handed to `glBufferData` (lines 279-280): the first `particle_count*2`
entries of `positions`. -/
def uploaded (s : State) : List ℚ :=
  (List.range (s.particle_count * 2)).map s.positions

/-- The points `glDrawArrays( GL_POINTS, 0, particle_count )` draws from a buffer of
two-float vertices (lines 138, 281). -/
def drawArrays (buffer : List ℚ) (count : Nat) : List (ℚ × ℚ) :=
  (List.range count).map fun i => (buffer.getD (i * 2) 0, buffer.getD (i * 2 + 1) 0)

def render (s : State) : State :=
  { s with screen := drawArrays (uploaded s) s.particle_count }

/-! ## Events and the frame (`main.c` lines 169-285) -/

/-- The fields of `SDL_Event` the loop looks at: `event.type` and `event.window.event`. -/
structure Event where
  type : Nat
  window_event : Nat

/-- Value of `SDL_WINDOWEVENT` in the SDL2 headers. -/
def SDL_WINDOWEVENT : Nat := 0x200
/-- Value of `SDL_WINDOWEVENT_CLOSE` in the SDL2 headers. -/
def SDL_WINDOWEVENT_CLOSE : Nat := 14
/-- Value of `SDL_BUTTON_LEFT` in the SDL2 headers. -/
def SDL_BUTTON_LEFT : Nat := 1
/-- Value of `SDL_BUTTON_RIGHT` in the SDL2 headers. -/
def SDL_BUTTON_RIGHT : Nat := 3
/-- The mask `SDL_BUTTON(X)` of the SDL2 headers, `1 << (X-1)`. -/
def SDL_BUTTON (x : Nat) : Nat := 1 <<< (x - 1)

/-- What the outside world supplies during one pass of the main loop. -/
structure FrameInput where
  /-- the events `SDL_PollEvent` hands out before it returns 0 -/
  events : List Event
  /-- the button mask returned by the first `SDL_GetMouseState` (line 188) -/
  buttons_l : Nat
  /-- the button mask returned by the second `SDL_GetMouseState` (line 189) -/
  buttons_r : Nat
  mouse_x : Int
  mouse_y : Int
  /-- the value of `SDL_GetTicks()` at line 234 -/
  ticks : Nat

/-- The loop `while ( SDL_PollEvent( &event ) )` of lines 176-184. -/
def pollEvents : List Event → State → State
  | [], s => s
  | event :: rest, s =>
    let s1 :=
      if event.type = SDL_WINDOWEVENT then
        if event.window_event = SDL_WINDOWEVENT_CLOSE then { s with running := false } else s
      else s
    pollEvents rest s1

/-- Mouse Values (lines 187-189). -/
def mouseValues (inp : FrameInput) (s : State) : State :=
  { s with clicked_l := decide (inp.buttons_l &&& SDL_BUTTON SDL_BUTTON_LEFT ≠ 0),
           clicked_r := decide (inp.buttons_r &&& SDL_BUTTON SDL_BUTTON_RIGHT ≠ 0),
           mouse_x := inp.mouse_x, mouse_y := inp.mouse_y }

/-- One pass through the body of `while( running )` (lines 171-284). -/
def frame (rand : Nat → Nat) (inp : FrameInput) (s : State) : Except Fault State := do
  let s := pollEvents inp.events s
  let s := mouseValues inp s
  let s ← spawn rand s
  let s := findDeltaTime inp.ticks s
  let s ← updateParticles s
  pure (render s)

/-- The loop `while( running )` of lines 169-285 on the inputs of the frames to come; it is
a fault of the model when they are used up with `running` still true. -/
def mainLoop (rand : Nat → Nat) : List FrameInput → State → Except Fault State
  | [], s => if s.running then .error .outOfFuel else .ok s
  | inp :: rest, s =>
    if s.running then do
      let s1 ← frame rand inp s
      mainLoop rand rest s1
    else .ok s

/-! ## Startup and `main` (`main.c` lines 28-164, 287-294) -/

/-- What the library calls of the startup return when `main` makes them. -/
structure Startup where
  /-- return value of `SDL_Init` -/
  SDL_Init : Int
  /-- whether `SDL_CreateWindow` returns a non-NULL window -/
  window : Bool
  /-- whether `SDL_GL_CreateContext` returns a non-NULL context -/
  context : Bool
  /-- whether `glewInit()` returns `GLEW_OK` -/
  glewInit : Bool
  /-- whether `malloc` returns a non-NULL block -/
  memory_block : Bool
  /-- the value of `SDL_GetTicks()` at line 164 -/
  ticks : Nat
  /-- the contents of the fresh block and of the locals `main` does not initialise -/
  uninitialised : State
  /-- the values `rand()` returns after `srand( time(NULL) )` -/
  rand : Nat → Nat

/-- A startup call `main` has made, with what it returned. -/
inductive Call where
  | SDL_Init (ret : Int)
  | SDL_CreateWindow (nonNull : Bool)
  | SDL_GL_CreateContext (nonNull : Bool)
  | glewInit (ok : Bool)
  | malloc (nonNull : Bool)
  deriving DecidableEq

/-- The result of a run of `main`: the startup calls made, in order, and the value returned
(or the fault of the model that stopped the main loop). -/
structure Run where
  calls : List Call
  result : Except Fault Int

/-- The state on entry to the main loop (lines 142, 154-168). -/
def initialState (env : Startup) : State :=
  { env.uninitialised with
    particle_count := 0, running := true, last_time := env.ticks % 4294967296,
    clicked_l := false, clicked_r := false }

/-- The function `main` (lines 28-294) run against a startup environment and the inputs of
the frames. -/
def main (env : Startup) (inputs : List FrameInput) : Run :=
  if env.SDL_Init ≠ 0 then
    { calls := [.SDL_Init env.SDL_Init], result := .ok 1 }
  else if env.window = false then
    { calls := [.SDL_Init env.SDL_Init, .SDL_CreateWindow env.window], result := .ok 1 }
  else if env.context = false then
    { calls := [.SDL_Init env.SDL_Init, .SDL_CreateWindow env.window,
                .SDL_GL_CreateContext env.context], result := .ok 1 }
  else if env.glewInit = false then
    { calls := [.SDL_Init env.SDL_Init, .SDL_CreateWindow env.window,
                .SDL_GL_CreateContext env.context, .glewInit env.glewInit],
      result := .ok (-2) }
  else if env.memory_block = false then
    { calls := [.SDL_Init env.SDL_Init, .SDL_CreateWindow env.window,
                .SDL_GL_CreateContext env.context, .glewInit env.glewInit,
                .malloc env.memory_block], result := .ok 1 }
  else
    { calls := [.SDL_Init env.SDL_Init, .SDL_CreateWindow env.window,
                .SDL_GL_CreateContext env.context, .glewInit env.glewInit,
                .malloc env.memory_block],
      result := do
        let _ ← mainLoop env.rand inputs (initialState env)
        pure 0 }

/-! ## Vocabulary of the statements -/

/-- The records in the `n` slots `particles[lo]`, ..., `particles[lo+n-1]`, in slot order. -/
def slots (particles : Nat → Particle) (lo n : Nat) : List Particle :=
  (List.range' lo n).map particles

/-- The one-particle physics step with the times and the frame time of a state. -/
def step (s : State) (p : Particle) : Particle :=
  stepParticle s.current_time s.last_time s.dt p

/-- The records that remain of a collection of particles when each is stepped once and
those meeting the cull condition are discarded. -/
def survivors (s : State) (m : Multiset Particle) : Multiset Particle :=
  (m.map (step s)).filter fun p => ¬ cull p

/-- Slot `j` of `positions` holds the normalised device coordinates of `particles[j]` as
lines 262-263 compute and store them. -/
def positionAgrees (s : State) (j : Nat) : Prop :=
  s.positions (j * 2) =
    float32 (float64 (-1 + float32 (float32 ((s.particles j).x / 1280) * 2))) ∧
  s.positions (j * 2 + 1) =
    float32 (-(float64 (-1 + float32 (float32 ((s.particles j).y / 720) * 2))))

/-- Two states agree on the locals of `main` other than the particle data, the `rand()`
position and the screen. -/
def sameVars (s t : State) : Prop :=
  s.running = t.running ∧ s.current_time = t.current_time ∧ s.last_time = t.last_time ∧
  s.dt = t.dt ∧ s.clicked_l = t.clicked_l ∧ s.clicked_r = t.clicked_r ∧
  s.mouse_x = t.mouse_x ∧ s.mouse_y = t.mouse_y

/-- The record a spawn pass leaves in the slot it fills. -/
def spawned (rand : Nat → Nat) (dy_of : Nat → ℚ) (s : State) : Particle :=
  { x := (s.mouse_x : ℚ), y := (s.mouse_y : ℚ),
    dx := -200 + ((rand s.rand_calls % 40000 : Nat) : ℚ) / 100,
    dy := dy_of (rand (s.rand_calls + 1)),
    life := ((PARTICLE_DEFAULT_LIFE + rand (s.rand_calls + 2) % PARTICLE_DEFAULT_LIFE : Nat) :
      Int) }

/-! ## Concrete states and inputs for the worked instances -/

/-- Two live particles in an otherwise zeroed block. -/
def demoParticles : Nat → Particle := fun j =>
  if j = 0 then { x := 640, y := 360, dx := 10, dy := -50, life := 1500 }
  else if j = 1 then { x := 1279, y := 100, dx := 200, dy := 0, life := 3000 }
  else { x := 0, y := 0, dx := 0, dy := 0, life := 0 }

/-- A state in mid-run: two particles, the left button held, a 16 ms frame. -/
def demoState : State :=
  { particle_count := 2, positions := fun _ => 0, particles := demoParticles,
    running := true, current_time := 16, last_time := 16, dt := 2 / 125,
    clicked_l := true, clicked_r := false, mouse_x := 100, mouse_y := 200,
    rand_calls := 0, screen := [] }

/-- A stream of `rand()` values. -/
def demoRand : Nat → Nat := fun k => 7919 * k + 13

/-- A startup in which every call succeeds. -/
def demoStartup : Startup :=
  { SDL_Init := 0, window := true, context := true, glewInit := true, memory_block := true,
    ticks := 1000, uninitialised := demoState, rand := demoRand }

/-- A startup in which `SDL_Init` fails and every later step would fail too. -/
def sdlFailStartup : Startup :=
  { SDL_Init := -1, window := false, context := false, glewInit := false,
    memory_block := false, ticks := 1000, uninitialised := demoState, rand := demoRand }

/-- A startup in which `glewInit` fails. -/
def glewFailStartup : Startup :=
  { SDL_Init := 0, window := true, context := true, glewInit := false,
    memory_block := true, ticks := 1000, uninitialised := demoState, rand := demoRand }

/-- A frame in which the window is closed while the left button is held. -/
def closeFrame : FrameInput :=
  { events := [{ type := SDL_WINDOWEVENT, window_event := SDL_WINDOWEVENT_CLOSE }],
    buttons_l := 1, buttons_r := 0, mouse_x := 100, mouse_y := 100, ticks := 1016 }

/-- One particle as the left button spawns it (`dx = 0`, `dy = -1000`, `life = 2500`) in
mid-screen; the last frame was sampled at tick 1000. -/
def agingState : State :=
  { particle_count := 1, positions := fun _ => 0,
    particles := fun _ => { x := 640, y := 360, dx := 0, dy := -1000, life := 2500 },
    running := true, current_time := 1000, last_time := 1000, dt := 0,
    clicked_l := false, clicked_r := false, mouse_x := 0, mouse_y := 0,
    rand_calls := 0, screen := [] }

/-- A frame sampled at tick 1016 with no event and no button held. -/
def quietFrame : FrameInput :=
  { events := [], buttons_l := 0, buttons_r := 0, mouse_x := 0, mouse_y := 0, ticks := 1016 }

/-- One particle just below the top edge, moving up at 1000 px/s, in a 10 ms frame. -/
def topEdgeState : State :=
  { particle_count := 1, positions := fun _ => 0,
    particles := fun _ => { x := 640, y := 5, dx := 0, dy := -1000, life := 2500 },
    running := true, current_time := 10, last_time := 10, dt := 1 / 100,
    clicked_l := false, clicked_r := false, mouse_x := 0, mouse_y := 0,
    rand_calls := 0, screen := [] }

/-- One particle at rest at `(333, 222)` in a frame of 0 ms (two frames within one tick), so
that its physics step leaves the coordinates as they are; `positions` starts zeroed. -/
def roundingState : State :=
  { particle_count := 1, positions := fun _ => 0,
    particles := fun _ => { x := 333, y := 222, dx := 0, dy := 0, life := 2500 },
    running := true, current_time := 1000, last_time := 1000, dt := 0,
    clicked_l := false, clicked_r := false, mouse_x := 333, mouse_y := 222,
    rand_calls := 0, screen := [] }

/-! ## Helper lemmas: the loop body in closed form -/

theorem integrate_eq (s : State) (i : Nat) (hi : i < MAX_PARTICLES) :
    integrate s i = .ok
      { s with
        particles := Function.update s.particles i
          (stepParticle s.current_time s.last_time s.dt (s.particles i)) } := by
  simp [integrate, getParticle, setParticle, hi, stepParticle, bind, Except.bind, pure,
    Except.pure]

theorem writePosition_eq (s : State) (i : Nat) (hi : i < MAX_PARTICLES) :
    writePosition s i = .ok
      { s with
        positions := Function.update (Function.update s.positions (i * 2)
          (float32 (float64 (-1 + float32 (float32
            ((s.particles i).x / (SCREEN_WIDTH : ℚ)) * 2))))) (i * 2 + 1)
          (float32 (-(float64 (-1 + float32 (float32
            ((s.particles i).y / (SCREEN_HEIGHT : ℚ)) * 2))))) } := by
  have h1 : i * 2 < MAX_PARTICLES * 2 := by omega
  have h2 : i * 2 + 1 < MAX_PARTICLES * 2 := by omega
  simp [writePosition, getParticle, setPosition, hi, h1, h2, bind, Except.bind, pure,
    Except.pure]

theorem removeAt_eq (s : State) (i : Nat) (hi : i < s.particle_count)
    (hc : s.particle_count ≤ MAX_PARTICLES) :
    removeAt s i = .ok
      { s with
        particles := Function.update s.particles i (s.particles (s.particle_count - 1)),
        positions := Function.update (Function.update s.positions (i * 2)
          (s.positions ((s.particle_count - 1) * 2))) (i * 2 + 1)
          (Function.update s.positions (i * 2) (s.positions ((s.particle_count - 1) * 2))
            ((s.particle_count - 1) * 2 + 1)),
        particle_count := s.particle_count - 1 } := by
  have h0 : 1 ≤ s.particle_count := by omega
  have h1 : s.particle_count - 1 < MAX_PARTICLES := by omega
  have h2 : i < MAX_PARTICLES := by omega
  have h3 : (s.particle_count - 1) * 2 < MAX_PARTICLES * 2 := by omega
  have h4 : (s.particle_count - 1) * 2 + 1 < MAX_PARTICLES * 2 := by omega
  have h5 : i * 2 < MAX_PARTICLES * 2 := by omega
  have h6 : i * 2 + 1 < MAX_PARTICLES * 2 := by omega
  simp [removeAt, pred_count, getParticle, setParticle, getPosition, setPosition, h0, h1, h2,
    h3, h4, h5, h6, bind, Except.bind, pure, Except.pure]

theorem slots_succ (f : Nat → Particle) (lo n : Nat) :
    slots f lo (n + 1) = f lo :: slots f (lo + 1) n := by
  simp [slots, List.range'_succ]

theorem slots_concat (f : Nat → Particle) (lo n : Nat) :
    slots f lo (n + 1) = slots f lo n ++ [f (lo + n)] := by
  simp [slots, List.range'_1_concat]

theorem slots_congr (f g : Nat → Particle) (lo n : Nat)
    (h : ∀ j, lo ≤ j → j < lo + n → f j = g j) : slots f lo n = slots g lo n := by
  unfold slots
  apply List.map_congr_left
  intro j hj
  rw [List.mem_range'_1] at hj
  exact h j hj.1 hj.2

theorem mem_slots (f : Nat → Particle) (lo n j : Nat) (h1 : lo ≤ j) (h2 : j < lo + n) :
    f j ∈ slots f lo n := by
  unfold slots
  exact List.mem_map.mpr ⟨j, List.mem_range'_1.mpr ⟨h1, h2⟩, rfl⟩

/-- Moving the last record of a segment into its first slot gives, up to order, the segment
that starts one slot later. -/
theorem slots_moved (f g : Nat → Particle) (i m : Nat)
    (hrest : ∀ j, i < j → g j = f j) (hfirst : 0 < m → g i = f (i + m)) :
    (↑(slots g i m) : Multiset Particle) = ↑(slots f (i + 1) m) := by
  cases m with
  | zero => simp [slots]
  | succ m =>
    rw [slots_succ, slots_concat, hfirst (Nat.succ_pos m)]
    rw [slots_congr g f (i + 1) m (fun j hj _ => hrest j (by omega))]
    rw [← Multiset.cons_coe, ← Multiset.coe_add, ← Multiset.singleton_add, add_comm]
    have : i + (m + 1) = i + 1 + m := by omega
    rw [this]
    rfl

theorem survivors_cons_cull (s : State) (p : Particle) (m : Multiset Particle)
    (h : cull (step s p)) : survivors s (p ::ₘ m) = survivors s m := by
  unfold survivors
  rw [Multiset.map_cons, Multiset.filter_cons_of_neg]
  exact fun hn => hn h

theorem survivors_cons_keep (s : State) (p : Particle) (m : Multiset Particle)
    (h : ¬ cull (step s p)) : survivors s (p ::ₘ m) = step s p ::ₘ survivors s m := by
  unfold survivors
  rw [Multiset.map_cons, Multiset.filter_cons_of_pos]
  exact h

theorem survivors_congr (s t : State) (h : sameVars s t) (m : Multiset Particle) :
    survivors t m = survivors s m := by
  obtain ⟨_, h2, h3, h4, _⟩ := h
  unfold survivors step
  rw [h2, h3, h4]

theorem sameVars_refl (s : State) : sameVars s s := by
  simp [sameVars]

theorem sameVars_trans (s t u : State) (h1 : sameVars s t) (h2 : sameVars t u) :
    sameVars s u := by
  unfold sameVars at *
  obtain ⟨a1, a2, a3, a4, a5, a6, a7, a8⟩ := h1
  obtain ⟨b1, b2, b3, b4, b5, b6, b7, b8⟩ := h2
  exact ⟨a1.trans b1, a2.trans b2, a3.trans b3, a4.trans b4, a5.trans b5, a6.trans b6,
    a7.trans b7, a8.trans b8⟩

/-- The body of the update loop on a particle that meets the cull condition after its
step. -/
theorem updateBody_cull (s : State) (i : Nat) (hi : i < s.particle_count)
    (hc : s.particle_count ≤ MAX_PARTICLES) (h : cull (step s (s.particles i))) :
    ∃ s2, updateBody s i = .ok (s2, i) ∧ s2.particle_count = s.particle_count - 1 ∧
      (∀ j, j ≠ i → s2.particles j = s.particles j) ∧
      (i < s.particle_count - 1 → s2.particles i = s.particles (s.particle_count - 1)) ∧
      (∀ k, k < i * 2 → s2.positions k = s.positions k) ∧
      sameVars s s2 ∧ s2.rand_calls = s.rand_calls ∧ s2.screen = s.screen := by
  have hi2 : i < MAX_PARTICLES := by omega
  have hget : getParticle (Function.update s.particles i (step s (s.particles i))) i =
      .ok (step s (s.particles i)) := by simp [getParticle, hi2]
  have hrem := removeAt_eq
    { s with particles := Function.update s.particles i (step s (s.particles i)) } i hi hc
  have hbody : ∃ s2,
      removeAt
        { s with
          particles := Function.update s.particles i (step s (s.particles i)) } i = .ok s2 ∧
      updateBody s i = .ok (s2, i) := by
    unfold updateBody
    rw [integrate_eq s i hi2]
    simp only [bind, Except.bind, pure, Except.pure]
    rw [show stepParticle s.current_time s.last_time s.dt = step s from rfl, hget]
    simp only [h, if_true]
    rw [hrem]
    exact ⟨_, rfl, rfl⟩
  obtain ⟨s2, hr, hb⟩ := hbody
  rw [hrem] at hr
  injection hr with hr
  subst hr
  refine ⟨_, hb, ?_⟩
  · refine ⟨rfl, ?_, ?_, ?_, ?_, rfl, rfl⟩
    · intro j hj
      simp [Function.update_noteq hj]
    · intro hlt
      have : s.particle_count - 1 ≠ i := by omega
      simp [Function.update_noteq this]
    · intro k hk
      have h1 : k ≠ i * 2 + 1 := by omega
      have h2 : k ≠ i * 2 := by omega
      simp [Function.update_noteq h1, Function.update_noteq h2]
    · simp [sameVars]

/-- The body of the update loop on a particle that does not meet the cull condition after
its step. -/
theorem updateBody_keep (s : State) (i : Nat) (hi : i < s.particle_count)
    (hc : s.particle_count ≤ MAX_PARTICLES) (h : ¬ cull (step s (s.particles i))) :
    ∃ s2, updateBody s i = .ok (s2, i + 1) ∧ s2.particle_count = s.particle_count ∧
      (∀ j, j ≠ i → s2.particles j = s.particles j) ∧
      s2.particles i = step s (s.particles i) ∧
      (∀ k, k < i * 2 → s2.positions k = s.positions k) ∧
      positionAgrees s2 i ∧
      sameVars s s2 ∧ s2.rand_calls = s.rand_calls ∧ s2.screen = s.screen := by
  have hi2 : i < MAX_PARTICLES := by omega
  have hget : getParticle (Function.update s.particles i (step s (s.particles i))) i =
      .ok (step s (s.particles i)) := by simp [getParticle, hi2]
  have hwr := writePosition_eq
    { s with particles := Function.update s.particles i (step s (s.particles i)) } i hi2
  have hbody : ∃ s2,
      writePosition
        { s with
          particles := Function.update s.particles i (step s (s.particles i)) } i = .ok s2 ∧
      updateBody s i = .ok (s2, i + 1) := by
    unfold updateBody
    rw [integrate_eq s i hi2]
    simp only [bind, Except.bind, pure, Except.pure]
    rw [show stepParticle s.current_time s.last_time s.dt = step s from rfl, hget]
    simp only [h, if_false]
    rw [hwr]
    exact ⟨_, rfl, rfl⟩
  obtain ⟨s2, hr, hb⟩ := hbody
  rw [hwr] at hr
  injection hr with hr
  subst hr
  refine ⟨_, hb, ?_⟩
  · refine ⟨rfl, ?_, ?_, ?_, ?_, ?_, rfl, rfl⟩
    · intro j hj
      simp [Function.update_noteq hj]
    · simp
    · intro k hk
      have h1 : k ≠ i * 2 + 1 := by omega
      have h2 : k ≠ i * 2 := by omega
      simp [Function.update_noteq h1, Function.update_noteq h2]
    · unfold positionAgrees
      have h1 : i * 2 ≠ i * 2 + 1 := by omega
      simp only [Function.update_same, Function.update_noteq h1, SCREEN_WIDTH, SCREEN_HEIGHT]
      push_cast
      exact ⟨rfl, rfl⟩
    · simp [sameVars]

/-- The update loop from any `i`, with exactly the passes it needs: it finishes without a
fault; the slots below `i` are left alone; what ends up in the slots below the new
`particle_count` is, up to order, the untouched prefix together with the survivors of the
slots from `i` on; and every slot filled from `i` on has its two floats written. -/
theorem updateLoop_spec : ∀ (fuel : Nat) (s : State) (i : Nat),
    i + fuel = s.particle_count → s.particle_count ≤ MAX_PARTICLES →
    ∃ s', updateLoop fuel s i = .ok s' ∧ i ≤ s'.particle_count ∧
      s'.particle_count ≤ s.particle_count ∧
      (↑(slots s'.particles 0 s'.particle_count) : Multiset Particle) =
        ↑(slots s.particles 0 i) + survivors s ↑(slots s.particles i fuel) ∧
      (∀ j, j < i → s'.particles j = s.particles j) ∧
      (∀ k, k < i * 2 → s'.positions k = s.positions k) ∧
      (∀ j, i ≤ j → j < s'.particle_count → positionAgrees s' j) ∧
      sameVars s s' ∧ s'.rand_calls = s.rand_calls ∧ s'.screen = s.screen := by
  intro fuel
  induction fuel with
  | zero =>
    intro s i hfuel _
    have hi : ¬ i < s.particle_count := by omega
    refine ⟨s, by simp [updateLoop, hi], by omega, le_refl _, ?_, fun _ _ => rfl,
      fun _ _ => rfl, ?_, sameVars_refl s, rfl, rfl⟩
    · have : s.particle_count = i := by omega
      rw [this]
      simp [slots, survivors]
    · intro j h1 h2
      omega
  | succ m ih =>
    intro s i hfuel hc
    have hi : i < s.particle_count := by omega
    by_cases h : cull (step s (s.particles i))
    · obtain ⟨s2, hb, hcnt, hps, hlast, hpos, hv, hr, hsc⟩ := updateBody_cull s i hi hc h
      obtain ⟨s', hl, h1, h2, h3, h4, h5, h6, h7, h8, h9⟩ :=
        ih s2 i (by omega) (by omega)
      refine ⟨s', ?_, h1, by omega, ?_, ?_, ?_, h6, sameVars_trans _ _ _ hv h7,
        h8.trans hr, h9.trans hsc⟩
      · simp [updateLoop, hi, hb, bind, Except.bind, hl]
      · rw [h3, survivors_congr s s2 hv]
        rw [slots_congr s2.particles s.particles 0 i (fun j _ hj => hps j (by omega))]
        rw [slots_moved s.particles s2.particles i m (fun j hj => hps j (by omega))
          (fun hm => by rw [hlast (by omega)]; congr 1; omega)]
        rw [slots_succ s.particles i m, ← Multiset.cons_coe, survivors_cons_cull s _ _ h]
      · intro j hj
        rw [h4 j hj, hps j (by omega)]
      · intro k hk
        rw [h5 k hk, hpos k hk]
    · obtain ⟨s2, hb, hcnt, hps, hself, hpos, hagree, hv, hr, hsc⟩ :=
        updateBody_keep s i hi hc h
      obtain ⟨s', hl, h1, h2, h3, h4, h5, h6, h7, h8, h9⟩ :=
        ih s2 (i + 1) (by omega) (by omega)
      refine ⟨s', ?_, by omega, by omega, ?_, ?_, ?_, ?_, sameVars_trans _ _ _ hv h7,
        h8.trans hr, h9.trans hsc⟩
      · simp [updateLoop, hi, hb, bind, Except.bind, hl]
      · rw [h3, survivors_congr s s2 hv, slots_concat s2.particles 0 i]
        rw [slots_congr s2.particles s.particles 0 i (fun j _ hj => hps j (by omega))]
        rw [slots_congr s2.particles s.particles (i + 1) m (fun j hj _ => hps j (by omega))]
        rw [slots_succ s.particles i m, ← Multiset.cons_coe, survivors_cons_keep s _ _ h]
        rw [← Multiset.coe_add, ← Multiset.cons_coe, Multiset.coe_nil, Multiset.cons_zero,
          Nat.zero_add, hself]
        rw [add_assoc, Multiset.singleton_add]
      · intro j hj
        rw [h4 j (by omega), hps j (by omega)]
      · intro k hk
        rw [h5 k (by omega), hpos k hk]
      · intro j hj1 hj2
        by_cases hji : j = i
        · subst hji
          unfold positionAgrees at hagree ⊢
          rw [h5 (j * 2) (by omega), h5 (j * 2 + 1) (by omega), h4 j (by omega)]
          exact hagree
        · exact h6 j (by omega) hj2

/-! ## Helper lemmas: rounding -/

theorem roundHalfEven_eq (q : ℚ) (n : Int) (h1 : (n : ℚ) - 1 / 2 < q)
    (h2 : q < (n : ℚ) + 1 / 2) : roundHalfEven q = n := by
  unfold roundHalfEven
  by_cases hq : (n : ℚ) ≤ q
  · have hf : ⌊q⌋ = n := Int.floor_eq_iff.mpr ⟨hq, by linarith⟩
    rw [hf]
    have : q - (n : ℚ) < 1 / 2 := by linarith
    rw [if_pos this]
  · have hf : ⌊q⌋ = n - 1 :=
      Int.floor_eq_iff.mpr ⟨by push_cast; linarith, by push_cast; linarith⟩
    rw [hf]
    have h3 : ¬ (q - ((n - 1 : Int) : ℚ) < 1 / 2) := by push_cast; linarith
    have h4 : 1 / 2 < q - ((n - 1 : Int) : ℚ) := by push_cast; linarith
    simp only [h3, h4, if_true, if_false]
    omega

/-- A value in the binade `[2^(k+p-1), 2^(k+p))` that lies within half a unit of `n`
units of `2^k` rounds to `n * 2^k`. -/
theorem roundFloat_eq (p emin : Int) (q : ℚ) (k n : Int)
    (hlo : (2 : ℚ) ^ (k + (p - 1)) ≤ |q|) (hhi : |q| < (2 : ℚ) ^ (k + (p - 1) + 1))
    (hk : emin - (p - 1) ≤ k)
    (h1 : (n : ℚ) - 1 / 2 < q / 2 ^ k) (h2 : q / 2 ^ k < (n : ℚ) + 1 / 2) :
    roundFloat p emin q = (n : ℚ) * 2 ^ k := by
  have hpos : 0 < |q| := lt_of_lt_of_le (by positivity) hlo
  have hq : q ≠ 0 := abs_pos.mp hpos
  have hlog : Int.log 2 |q| = k + (p - 1) := by
    apply le_antisymm
    · have := (Int.lt_zpow_iff_log_lt (by norm_num : 1 < 2) hpos).mp (by exact_mod_cast hhi)
      omega
    · exact (Int.zpow_le_iff_le_log (by norm_num : 1 < 2) hpos).mp (by exact_mod_cast hlo)
  unfold roundFloat
  simp only [hq, if_false, hlog]
  have hmax : max (k + (p - 1) - (p - 1)) (emin - (p - 1)) = k := by
    rw [max_eq_left] <;> omega
  rw [hmax, roundHalfEven_eq _ n h1 h2]

/-! ## Helper lemmas: the spawn loops -/

theorem spawnOne_eq (rand : Nat → Nat) (dy_of : Nat → ℚ) (s : State)
    (h : s.particle_count < MAX_PARTICLES) :
    spawnOne rand dy_of s = .ok
      { s with
        particles := Function.update s.particles s.particle_count (spawned rand dy_of s),
        particle_count := s.particle_count + 1,
        rand_calls := s.rand_calls + 3 } := by
  simp [spawnOne, getParticle, setParticle, h, spawned, bind, Except.bind, pure, Except.pure]

/-- A spawn loop with `left` passes to go: it finishes without a fault, appends
`min left (MAX_PARTICLES - particle_count)` records at the mouse position and changes
nothing else of the arrays. -/
theorem spawnLoop_spec (rand : Nat → Nat) (dy_of : Nat → ℚ) : ∀ (left : Nat) (s : State),
    s.particle_count ≤ MAX_PARTICLES →
    ∃ s', spawnLoop rand dy_of left s = .ok s' ∧
      s'.particle_count = s.particle_count + min left (MAX_PARTICLES - s.particle_count) ∧
      (∀ j, j < s.particle_count → s'.particles j = s.particles j) ∧
      (∀ j, s'.particle_count ≤ j → s'.particles j = s.particles j) ∧
      (∀ j, s.particle_count ≤ j → j < s'.particle_count →
        (s'.particles j).x = (s.mouse_x : ℚ) ∧ (s'.particles j).y = (s.mouse_y : ℚ)) ∧
      s'.positions = s.positions ∧ sameVars s s' ∧ s'.screen = s.screen := by
  intro left
  induction left with
  | zero =>
    intro s _
    exact ⟨s, rfl, by simp, fun _ _ => rfl, fun _ _ => rfl, fun j h1 h2 => by omega, rfl,
      sameVars_refl s, rfl⟩
  | succ k ih =>
    intro s hc
    by_cases hfull : s.particle_count ≥ MAX_PARTICLES
    · refine ⟨s, by simp [spawnLoop, hfull], ?_, fun _ _ => rfl, fun _ _ => rfl, ?_, rfl,
        sameVars_refl s, rfl⟩
      · have : MAX_PARTICLES - s.particle_count = 0 := by omega
        rw [this]
        simp
      · intro j h1 h2
        omega
    · have hlt : s.particle_count < MAX_PARTICLES := by omega
      have hone := spawnOne_eq rand dy_of s hlt
      obtain ⟨s', hl, h1, h2, h3, h4, h5, h6, h7⟩ :=
        ih
          { s with
            particles := Function.update s.particles s.particle_count (spawned rand dy_of s),
            particle_count := s.particle_count + 1,
            rand_calls := s.rand_calls + 3 } (by simp only; omega)
      simp only at h1 h2 h3 h4 h5 h6 h7
      refine ⟨s', ?_, ?_, ?_, ?_, ?_, h5, ?_, h7⟩
      · simp [spawnLoop, hfull, hone, bind, Except.bind, hl]
      · rw [h1]
        omega
      · intro j hj
        rw [h2 j (by omega), Function.update_noteq (by omega)]
      · intro j hj
        rw [h3 j hj, Function.update_noteq (by omega)]
      · intro j hj1 hj2
        by_cases hj : j = s.particle_count
        · subst hj
          rw [h2 _ (by omega), Function.update_same]
          exact ⟨rfl, rfl⟩
        · exact h4 j (by omega) hj2
      · unfold sameVars at h6 ⊢
        exact h6

theorem spawnLeft_spec (rand : Nat → Nat) (s : State)
    (hc : s.particle_count ≤ MAX_PARTICLES) :
    ∃ s', spawnLeft rand s = .ok s' ∧
      s'.particle_count = s.particle_count +
        (if s.clicked_l then min SPAWN_PARTICLE_AMOUNT (MAX_PARTICLES - s.particle_count)
         else 0) ∧
      (∀ j, j < s.particle_count → s'.particles j = s.particles j) ∧
      (∀ j, s'.particle_count ≤ j → s'.particles j = s.particles j) ∧
      (∀ j, s.particle_count ≤ j → j < s'.particle_count →
        (s'.particles j).x = (s.mouse_x : ℚ) ∧ (s'.particles j).y = (s.mouse_y : ℚ)) ∧
      s'.positions = s.positions ∧ sameVars s s' ∧ s'.screen = s.screen ∧
      (s.clicked_l = false → s' = s) := by
  by_cases hl : s.clicked_l = true
  · obtain ⟨s', h0, h1, h2, h3, h4, h5, h6, h7⟩ :=
      spawnLoop_spec rand dy_left SPAWN_PARTICLE_AMOUNT s hc
    refine ⟨s', by simp [spawnLeft, hl, h0], by simp [hl, h1], h2, h3, h4, h5, h6, h7, ?_⟩
    intro hf
    rw [hl] at hf
    cases hf
  · refine ⟨s, by simp [spawnLeft, hl], by simp [hl], fun _ _ => rfl, fun _ _ => rfl, ?_,
      rfl, sameVars_refl s, rfl, fun _ => rfl⟩
    intro j h1 h2
    omega

theorem spawnRight_spec (rand : Nat → Nat) (s : State)
    (hc : s.particle_count ≤ MAX_PARTICLES) :
    ∃ s', spawnRight rand s = .ok s' ∧
      s'.particle_count = s.particle_count +
        (if s.clicked_r then
          min SPAWN_PARTICLE_BURST_AMOUNT (MAX_PARTICLES - s.particle_count)
         else 0) ∧
      (∀ j, j < s.particle_count → s'.particles j = s.particles j) ∧
      (∀ j, s'.particle_count ≤ j → s'.particles j = s.particles j) ∧
      (∀ j, s.particle_count ≤ j → j < s'.particle_count →
        (s'.particles j).x = (s.mouse_x : ℚ) ∧ (s'.particles j).y = (s.mouse_y : ℚ)) ∧
      s'.positions = s.positions ∧ sameVars s s' ∧ s'.screen = s.screen ∧
      (s.clicked_r = false → s' = s) := by
  by_cases hr : s.clicked_r = true
  · obtain ⟨s', h0, h1, h2, h3, h4, h5, h6, h7⟩ :=
      spawnLoop_spec rand dy_right SPAWN_PARTICLE_BURST_AMOUNT s hc
    refine ⟨s', by simp [spawnRight, hr, h0], by simp [hr, h1], h2, h3, h4, h5, h6, h7, ?_⟩
    intro hf
    rw [hr] at hf
    cases hf
  · refine ⟨s, by simp [spawnRight, hr], by simp [hr], fun _ _ => rfl, fun _ _ => rfl, ?_,
      rfl, sameVars_refl s, rfl, fun _ => rfl⟩
    intro j h1 h2
    omega

/-- A count within the capacity stays within it through either spawn block. -/
theorem spawn_count_le (c k : Nat) (b : Bool) (hc : c ≤ MAX_PARTICLES) :
    c + (if b then min k (MAX_PARTICLES - c) else 0) ≤ MAX_PARTICLES := by
  cases b
  · simpa using hc
  · simp only [if_true]
    omega

/-- The update loop entered at `i = 0`. -/
theorem updateParticles_spec (s : State) (hc : s.particle_count ≤ MAX_PARTICLES) :
    ∃ s', updateParticles s = .ok s' ∧ s'.particle_count ≤ s.particle_count ∧
      (↑(slots s'.particles 0 s'.particle_count) : Multiset Particle) =
        survivors s ↑(slots s.particles 0 s.particle_count) ∧
      (∀ j, j < s'.particle_count → positionAgrees s' j) ∧
      sameVars s s' ∧ s'.rand_calls = s.rand_calls ∧ s'.screen = s.screen := by
  obtain ⟨s', h0, _, h2, h3, _, _, h6, h7, h8, h9⟩ :=
    updateLoop_spec s.particle_count s 0 (by omega) hc
  refine ⟨s', h0, h2, ?_, fun j hj => h6 j (Nat.zero_le j) hj, h7, h8, h9⟩
  rw [h3]
  simp [slots]

theorem uploaded_getD (s : State) (k : Nat) (h : k < s.particle_count * 2) :
    (uploaded s).getD k 0 = s.positions k := by
  simp [uploaded, List.getD_eq_getElem?_getD, List.getElem?_range h, h]

/-! ## Helper lemmas: the frame and the main loop -/

theorem pollEvents_particle_count (events : List Event) : ∀ s : State,
    (pollEvents events s).particle_count = s.particle_count := by
  induction events with
  | nil => intro s; rfl
  | cons e rest ih =>
    intro s
    unfold pollEvents
    simp only
    rw [ih]
    split_ifs <;> rfl

theorem pollEvents_stays_stopped (events : List Event) : ∀ s : State,
    s.running = false → (pollEvents events s).running = false := by
  induction events with
  | nil => intro s h; exact h
  | cons e rest ih =>
    intro s h
    unfold pollEvents
    simp only
    apply ih
    split_ifs <;> first | rfl | exact h

theorem pollEvents_close (events : List Event) : ∀ s : State,
    (∃ e ∈ events, e.type = SDL_WINDOWEVENT ∧ e.window_event = SDL_WINDOWEVENT_CLOSE) →
    (pollEvents events s).running = false := by
  induction events with
  | nil =>
    intro s h
    obtain ⟨e, he, _⟩ := h
    cases he
  | cons e rest ih =>
    intro s h
    obtain ⟨e', he', h1, h2⟩ := h
    unfold pollEvents
    simp only
    rcases List.mem_cons.mp he' with heq | hin
    · subst heq
      apply pollEvents_stays_stopped
      simp [h1, h2]
    · exact ih _ ⟨e', hin, h1, h2⟩

theorem spawn_spec (rand : Nat → Nat) (s : State) (hc : s.particle_count ≤ MAX_PARTICLES) :
    ∃ s2, spawn rand s = .ok s2 ∧ s2.particle_count ≤ MAX_PARTICLES ∧ sameVars s s2 ∧
      (s.clicked_l = false → s.clicked_r = false → s2 = s) := by
  obtain ⟨s1, a0, a1, _, _, _, _, a6, _, a8⟩ := spawnLeft_spec rand s hc
  have hc1 : s1.particle_count ≤ MAX_PARTICLES := by
    rw [a1]
    exact spawn_count_le _ _ _ hc
  obtain ⟨s2, b0, b1, _, _, _, _, b6, _, b8⟩ := spawnRight_spec rand s1 hc1
  refine ⟨s2, by simp [spawn, a0, b0, bind, Except.bind], ?_, sameVars_trans _ _ _ a6 b6, ?_⟩
  · rw [b1]
    exact spawn_count_le _ _ _ hc1
  · intro hl hr
    have h1 : s1 = s := a8 hl
    rw [b8 (by rw [h1]; exact hr)]
    exact h1

/-- One frame from a state within the capacity: the spawn blocks and the update loop
finish without a fault, the count stays within the capacity and `running` is what the
event loop left. -/
theorem frame_spec (rand : Nat → Nat) (inp : FrameInput) (s : State)
    (hc : s.particle_count ≤ MAX_PARTICLES) :
    ∃ sc se, spawn rand (mouseValues inp (pollEvents inp.events s)) = .ok sc ∧
      updateParticles (findDeltaTime inp.ticks sc) = .ok se ∧
      frame rand inp s = .ok (render se) ∧
      (render se).particle_count ≤ MAX_PARTICLES ∧
      (render se).running = (pollEvents inp.events s).running := by
  have hb : (mouseValues inp (pollEvents inp.events s)).particle_count ≤ MAX_PARTICLES := by
    show (pollEvents inp.events s).particle_count ≤ MAX_PARTICLES
    rw [pollEvents_particle_count]
    exact hc
  obtain ⟨sc, c0, c1, c2, _⟩ := spawn_spec rand _ hb
  have hd : (findDeltaTime inp.ticks sc).particle_count ≤ MAX_PARTICLES := c1
  obtain ⟨se, e0, e1, _, _, e4, _⟩ := updateParticles_spec _ hd
  refine ⟨sc, se, c0, e0, ?_, ?_, ?_⟩
  · simp [frame, c0, e0, bind, Except.bind, pure, Except.pure]
  · exact le_trans e1 hd
  · show se.running = (pollEvents inp.events s).running
    rw [← e4.1]
    show sc.running = (pollEvents inp.events s).running
    rw [← c2.1]
    rfl

theorem mainLoop_stopped (rand : Nat → Nat) (inputs : List FrameInput) (s : State)
    (h : s.running = false) : mainLoop rand inputs s = .ok s := by
  cases inputs <;> simp [mainLoop, h]

/-- The main loop returns only in a state in which `running` is false. -/
theorem mainLoop_ok_running (rand : Nat → Nat) (inputs : List FrameInput) :
    ∀ s s' : State, mainLoop rand inputs s = .ok s' → s'.running = false := by
  induction inputs with
  | nil =>
    intro s s' h
    by_cases hr : s.running = true
    · simp [mainLoop, hr] at h
    · simp [mainLoop, hr] at h
      rw [← h]
      simpa using hr
  | cons inp rest ih =>
    intro s s' h
    by_cases hr : s.running = true
    · simp only [mainLoop, hr, if_true, bind, Except.bind] at h
      cases hf : frame rand inp s with
      | error f => rw [hf] at h; cases h
      | ok s1 =>
        rw [hf] at h
        exact ih s1 s' h
    · simp [mainLoop, hr] at h
      rw [← h]
      simpa using hr

/-- The main loop ends without a fault once a frame polls a window-close event. -/
theorem mainLoop_ends (rand : Nat → Nat) (inputs : List FrameInput) :
    ∀ s : State, s.particle_count ≤ MAX_PARTICLES →
    (∃ inp ∈ inputs, ∃ e ∈ inp.events,
      e.type = SDL_WINDOWEVENT ∧ e.window_event = SDL_WINDOWEVENT_CLOSE) →
    ∃ s', mainLoop rand inputs s = .ok s' ∧ s'.running = false := by
  induction inputs with
  | nil =>
    intro s _ h
    obtain ⟨inp, hin, _⟩ := h
    cases hin
  | cons inp rest ih =>
    intro s hc h
    by_cases hr : s.running = true
    · obtain ⟨_, se, _, _, hf, hcnt, hrun⟩ := frame_spec rand inp s hc
      have hstep : mainLoop rand (inp :: rest) s = mainLoop rand rest (render se) := by
        simp [mainLoop, hr, hf, bind, Except.bind]
      rw [hstep]
      obtain ⟨inp', hin', hclose⟩ := h
      rcases List.mem_cons.mp hin' with heq | hin
      · subst heq
        have hstop : (render se).running = false := by
          rw [hrun]
          exact pollEvents_close _ _ hclose
        exact ⟨_, mainLoop_stopped rand rest _ hstop, hstop⟩
      · exact ih _ hcnt ⟨inp', hin, hclose⟩
    · have hr' : s.running = false := by simpa using hr
      exact ⟨s, mainLoop_stopped rand _ s hr', hr'⟩

/-- The update loop on a single particle that is kept. -/
theorem updateParticles_single (s : State) (h1 : s.particle_count = 1)
    (hk : ¬ cull (step s (s.particles 0))) :
    ∃ s', updateParticles s = .ok s' ∧ s'.particle_count = 1 ∧
      s'.particles 0 = step s (s.particles 0) := by
  have hc : s.particle_count ≤ MAX_PARTICLES := by
    rw [h1]
    decide
  obtain ⟨s2, hb, hcnt, _, hself, _⟩ := updateBody_keep s 0 (by omega) hc hk
  refine ⟨s2, ?_, by omega, hself⟩
  unfold updateParticles
  rw [h1]
  have h2 : ¬ (1 < s2.particle_count) := by omega
  simp [updateLoop, h1, hb, bind, Except.bind, h2]

/-! ## The claims -/

/-- C1: for every state whose `particle_count` is at most `MAX_PARTICLES` (any array
contents, any times and frame time), the update loop finishes and the records in the slots
below the new `particle_count` are, as a multiset, the starting records of the slots below
the old `particle_count`, each stepped once by the one-particle physics step, with exactly
those meeting the cull condition discarded. -/
theorem update_handles_each_particle_once (s : State)
    (hc : s.particle_count ≤ MAX_PARTICLES) :
    ∃ s', updateParticles s = .ok s' ∧
      (↑(slots s'.particles 0 s'.particle_count) : Multiset Particle) =
        Multiset.filter (fun p => ¬ cull p)
          (Multiset.map (stepParticle s.current_time s.last_time s.dt)
            ↑(slots s.particles 0 s.particle_count)) := by
  obtain ⟨s', h0, _, h2, _⟩ := updateParticles_spec s hc
  exact ⟨s', h0, h2⟩

theorem update_handles_each_particle_once_witness :
    demoState.particle_count ≤ MAX_PARTICLES ∧
    ∃ s', updateParticles demoState = .ok s' ∧
      (↑(slots s'.particles 0 s'.particle_count) : Multiset Particle) =
        Multiset.filter (fun p => ¬ cull p)
          (Multiset.map
            (stepParticle demoState.current_time demoState.last_time demoState.dt)
            ↑(slots demoState.particles 0 demoState.particle_count)) :=
  ⟨by decide, update_handles_each_particle_once demoState (by decide)⟩

/-- C2: after the update loop every particle left in a slot below `particle_count` has
`life > 0`, `0 < x < 1280` and `y < 720`. -/
theorem update_leaves_only_live_on_screen (s : State)
    (hc : s.particle_count ≤ MAX_PARTICLES) :
    ∃ s', updateParticles s = .ok s' ∧
      ∀ j, j < s'.particle_count →
        (s'.particles j).life > 0 ∧ 0 < (s'.particles j).x ∧ (s'.particles j).x < 1280 ∧
        (s'.particles j).y < 720 := by
  obtain ⟨s', h0, _, h2, _⟩ := updateParticles_spec s hc
  refine ⟨s', h0, ?_⟩
  intro j hj
  have hmem : s'.particles j ∈ (↑(slots s'.particles 0 s'.particle_count) :
      Multiset Particle) :=
    Multiset.mem_coe.mpr (mem_slots s'.particles 0 s'.particle_count j (Nat.zero_le j)
      (by omega))
  rw [h2] at hmem
  have hk : ¬ cull (s'.particles j) := (Multiset.mem_filter.mp hmem).2
  unfold cull at hk
  simp only [SCREEN_WIDTH, SCREEN_HEIGHT, not_or, not_le, ge_iff_le] at hk
  obtain ⟨a, b, c, d⟩ := hk
  push_cast at c d
  exact ⟨a, b, c, d⟩

theorem update_leaves_only_live_on_screen_witness :
    demoState.particle_count ≤ MAX_PARTICLES ∧
    ∃ s', updateParticles demoState = .ok s' ∧
      ∀ j, j < s'.particle_count →
        (s'.particles j).life > 0 ∧ 0 < (s'.particles j).x ∧ (s'.particles j).x < 1280 ∧
        (s'.particles j).y < 720 :=
  ⟨by decide, update_leaves_only_live_on_screen demoState (by decide)⟩

/-- C3 (the code at the failing input): in a frame in which the tick counter advanced by
`e = 16` since the previous frame, a particle that starts the frame with `life = 2500`
survives the frame with `life = 2500`, not `2500 - e`: line 236 has set
`last_time = current_time` before line 243 subtracts `current_time - last_time`. -/
theorem frame_leaves_life_unchanged :
    u32_sub (quietFrame.ticks % 4294967296) agingState.last_time = 16 ∧
    (agingState.particles 0).life = 2500 ∧
    ∃ s', frame demoRand quietFrame agingState = .ok s' ∧ s'.particle_count = 1 ∧
      (s'.particles 0).life = 2500 := by
  refine ⟨by decide, rfl, ?_⟩
  obtain ⟨sc, se, hsp, hup, hfr, _, _⟩ :=
    frame_spec demoRand quietFrame agingState (by decide)
  obtain ⟨sc', hsp', _, _, hsame⟩ :=
    spawn_spec demoRand (mouseValues quietFrame (pollEvents quietFrame.events agingState))
      (by decide)
  rw [hsp] at hsp'
  injection hsp' with hsp'
  subst hsp'
  rw [hsame (by decide) (by decide)] at hup
  have hkeep : ¬ cull (step (findDeltaTime quietFrame.ticks
      (mouseValues quietFrame (pollEvents quietFrame.events agingState)))
      (agingState.particles 0)) := by
    norm_num [cull, step, stepParticle, findDeltaTime, mouseValues, pollEvents, quietFrame,
      agingState, u32_sub, GRAVITY, SCREEN_WIDTH, SCREEN_HEIGHT]
  obtain ⟨se', hup', hcnt, hp⟩ := updateParticles_single _ rfl hkeep
  rw [hup] at hup'
  injection hup' with hup'
  subst hup'
  refine ⟨_, hfr, hcnt, ?_⟩
  show (se.particles 0).life = 2500
  rw [hp]
  norm_num [step, stepParticle, findDeltaTime, mouseValues, pollEvents, quietFrame,
    agingState, u32_sub]

/-- C4: `particle_count ≤ MAX_PARTICLES` is kept by the left-button spawn block, by the
right-button spawn block, by the update loop and by a whole frame, from every state (button
states, mouse position, `rand()` values and frame time are arbitrary), and the update loop
never raises `particle_count`. -/
theorem particle_count_le_max_invariant (rand : Nat → Nat) (s : State)
    (hc : s.particle_count ≤ MAX_PARTICLES) :
    (∃ s', spawnLeft rand s = .ok s' ∧ s'.particle_count ≤ MAX_PARTICLES) ∧
    (∃ s', spawnRight rand s = .ok s' ∧ s'.particle_count ≤ MAX_PARTICLES) ∧
    (∃ s', updateParticles s = .ok s' ∧ s'.particle_count ≤ s.particle_count ∧
      s'.particle_count ≤ MAX_PARTICLES) ∧
    (∀ inp, ∃ s', frame rand inp s = .ok s' ∧ s'.particle_count ≤ MAX_PARTICLES) := by
  refine ⟨?_, ?_, ?_, ?_⟩
  · obtain ⟨s', h0, h1, _⟩ := spawnLeft_spec rand s hc
    exact ⟨s', h0, by rw [h1]; exact spawn_count_le _ _ _ hc⟩
  · obtain ⟨s', h0, h1, _⟩ := spawnRight_spec rand s hc
    exact ⟨s', h0, by rw [h1]; exact spawn_count_le _ _ _ hc⟩
  · obtain ⟨s', h0, h1, _⟩ := updateParticles_spec s hc
    exact ⟨s', h0, h1, le_trans h1 hc⟩
  · intro inp
    obtain ⟨_, se, _, _, hf, hcnt, _⟩ := frame_spec rand inp s hc
    exact ⟨_, hf, hcnt⟩

theorem particle_count_le_max_invariant_witness :
    demoState.particle_count ≤ MAX_PARTICLES ∧
    ((∃ s', spawnLeft demoRand demoState = .ok s' ∧ s'.particle_count ≤ MAX_PARTICLES) ∧
     (∃ s', spawnRight demoRand demoState = .ok s' ∧ s'.particle_count ≤ MAX_PARTICLES) ∧
     (∃ s', updateParticles demoState = .ok s' ∧
       s'.particle_count ≤ demoState.particle_count ∧
       s'.particle_count ≤ MAX_PARTICLES) ∧
     (∀ inp, ∃ s', frame demoRand inp demoState = .ok s' ∧
       s'.particle_count ≤ MAX_PARTICLES)) :=
  ⟨by decide, particle_count_le_max_invariant demoRand demoState (by decide)⟩

/-- C5: from a state with `particle_count = c ≤ 40768` the left-button block appends
`min(128, 40768 - c)` records when the left button is held (none otherwise), then the
right-button block appends `min(512, 40768 - c1)` records when the right button is held
(none otherwise), `c1` being the count in between; every appended record has
`x = mouse_x` and `y = mouse_y`; the slots below `c` are unchanged; with neither button
held the state is unchanged. -/
theorem spawn_appends (rand : Nat → Nat) (s : State)
    (hc : s.particle_count ≤ 40768) :
    ∃ s1 s2, spawnLeft rand s = .ok s1 ∧ spawnRight rand s1 = .ok s2 ∧
      spawn rand s = .ok s2 ∧
      s1.particle_count =
        s.particle_count + (if s.clicked_l then min 128 (40768 - s.particle_count) else 0) ∧
      s2.particle_count =
        s1.particle_count +
          (if s.clicked_r then min 512 (40768 - s1.particle_count) else 0) ∧
      (∀ j, s.particle_count ≤ j → j < s2.particle_count →
        (s2.particles j).x = (s.mouse_x : ℚ) ∧ (s2.particles j).y = (s.mouse_y : ℚ)) ∧
      (∀ j, j < s.particle_count → s2.particles j = s.particles j) ∧
      (s.clicked_l = false → s.clicked_r = false → s2 = s) := by
  obtain ⟨s1, a0, a1, a2, _, a4, _, a6, _, a8⟩ := spawnLeft_spec rand s hc
  have hc1 : s1.particle_count ≤ MAX_PARTICLES := by
    rw [a1]
    exact spawn_count_le _ _ _ hc
  obtain ⟨s2, b0, b1, b2, _, b4, _, _, _, b8⟩ := spawnRight_spec rand s1 hc1
  obtain ⟨_, _, _, _, _, v6, v7, v8⟩ := a6
  refine ⟨s1, s2, a0, b0, ?_, ?_, ?_, ?_, ?_, ?_⟩
  · simp [spawn, a0, b0, bind, Except.bind]
  · rw [a1]
    rfl
  · rw [b1, v6]
    rfl
  · intro j h1 h2
    by_cases hj : j < s1.particle_count
    · rw [b2 j hj]
      exact a4 j h1 hj
    · rw [v7, v8]
      exact b4 j (by omega) h2
  · intro j hj
    have : s.particle_count ≤ s1.particle_count := by
      rw [a1]
      exact Nat.le_add_right _ _
    rw [b2 j (by omega), a2 j hj]
  · intro hl hr
    have h1 : s1 = s := a8 hl
    rw [b8 (v6.symm.trans hr)]
    exact h1

theorem spawn_appends_witness :
    demoState.particle_count ≤ 40768 ∧
    ∃ s1 s2, spawnLeft demoRand demoState = .ok s1 ∧ spawnRight demoRand s1 = .ok s2 ∧
      spawn demoRand demoState = .ok s2 ∧
      s1.particle_count =
        demoState.particle_count +
          (if demoState.clicked_l then min 128 (40768 - demoState.particle_count) else 0) ∧
      s2.particle_count =
        s1.particle_count +
          (if demoState.clicked_r then min 512 (40768 - s1.particle_count) else 0) ∧
      (∀ j, demoState.particle_count ≤ j → j < s2.particle_count →
        (s2.particles j).x = (demoState.mouse_x : ℚ) ∧
        (s2.particles j).y = (demoState.mouse_y : ℚ)) ∧
      (∀ j, j < demoState.particle_count → s2.particles j = demoState.particles j) ∧
      (demoState.clicked_l = false → demoState.clicked_r = false → s2 = demoState) :=
  ⟨by decide, spawn_appends demoRand demoState (by decide)⟩

/-- C6 as stated fails: for the particle of `roundingState` (at `x = 333`, `y = 222`, kept
by the update loop with its coordinates unchanged), line 262 stores
`positions[0] = -16095642 / 2^25`, which is not `-1 + 2*x/1280 = -307/640`: the quotient
`x/1280` is rounded to `float` before the sum is taken and stored. -/
theorem position_is_rounded_not_exact :
    ∃ s', updateParticles roundingState = .ok s' ∧ s'.particle_count = 1 ∧
      (s'.particles 0).x = 333 ∧
      s'.positions (2 * 0) = -16095642 / 33554432 ∧
      s'.positions (2 * 0) ≠ -1 + 2 * (s'.particles 0).x / 1280 := by
  have hkeep : ¬ cull (step roundingState (roundingState.particles 0)) := by
    norm_num [cull, step, stepParticle, roundingState, u32_sub, GRAVITY, SCREEN_WIDTH,
      SCREEN_HEIGHT]
  obtain ⟨s', hup, hcnt, hp⟩ := updateParticles_single roundingState rfl hkeep
  obtain ⟨s2, hup2, _, _, hagree, _⟩ := updateParticles_spec roundingState (by decide)
  rw [hup] at hup2
  injection hup2 with hup2
  subst hup2
  have hx : (s'.particles 0).x = 333 := by
    rw [hp]
    norm_num [step, stepParticle, roundingState]
  have e1 : float32 (333 / 1280) = 8729395 * 2 ^ (-25 : Int) :=
    roundFloat_eq 24 (-126) (333 / 1280) (-25) 8729395
      (by rw [abs_of_pos (by norm_num)]; norm_num)
      (by rw [abs_of_pos (by norm_num)]; norm_num)
      (by norm_num) (by norm_num) (by norm_num)
  have e2 : float32 (8729395 * 2 ^ (-25 : Int) * 2) = 8729395 * 2 ^ (-24 : Int) :=
    roundFloat_eq 24 (-126) _ (-24) 8729395
      (by rw [abs_of_pos (by norm_num)]; norm_num)
      (by rw [abs_of_pos (by norm_num)]; norm_num)
      (by norm_num) (by norm_num) (by norm_num)
  have e3 : float64 (-1 + 8729395 * 2 ^ (-24 : Int)) =
      -8641281999765504 * 2 ^ (-54 : Int) :=
    roundFloat_eq 53 (-1022) _ (-54) (-8641281999765504)
      (by rw [abs_of_neg (by norm_num)]; norm_num)
      (by rw [abs_of_neg (by norm_num)]; norm_num)
      (by norm_num) (by norm_num) (by norm_num)
  have e4 : float32 (-8641281999765504 * 2 ^ (-54 : Int)) = -16095642 * 2 ^ (-25 : Int) :=
    roundFloat_eq 24 (-126) _ (-25) (-16095642)
      (by rw [abs_of_neg (by norm_num)]; norm_num)
      (by rw [abs_of_neg (by norm_num)]; norm_num)
      (by norm_num) (by norm_num) (by norm_num)
  have hpos : s'.positions (2 * 0) = -16095642 / 33554432 := by
    have h := (hagree 0 (by omega)).1
    rw [hx, e1, e2, e3, e4] at h
    rw [show 2 * 0 = 0 * 2 from rfl, h]
    norm_num
  refine ⟨s', hup, hcnt, hx, hpos, ?_⟩
  rw [hpos, hx]
  norm_num

/-- C6 as amended: after the update loop, for every `i` below the new `particle_count`,
`positions[2i]` and `positions[2i+1]` are the values lines 262-263 compute from the
coordinates `(x_i, y_i)` of the particle in slot `i`: `-1 + 2*x_i/1280` and
`1 - 2*y_i/720` with the quotient and its double rounded to `float`, the sum to `double`
and the stored value to `float`. So the `2*particle_count` floats uploaded and the points
drawn are these rounded normalised coordinates of the surviving particles, in slot order,
whatever `positions` held before the loop. -/
theorem positions_agree_after_update (s : State)
    (hc : s.particle_count ≤ MAX_PARTICLES) :
    ∃ s', updateParticles s = .ok s' ∧
      (∀ i, i < s'.particle_count →
        s'.positions (2 * i) =
          float32 (float64 (-1 + float32 (float32 ((s'.particles i).x / 1280) * 2))) ∧
        s'.positions (2 * i + 1) =
          float32 (-(float64 (-1 + float32 (float32 ((s'.particles i).y / 720) * 2))))) ∧
      (uploaded s').length = 2 * s'.particle_count ∧
      (render s').screen = (List.range s'.particle_count).map fun i =>
        (float32 (float64 (-1 + float32 (float32 ((s'.particles i).x / 1280) * 2))),
         float32 (-(float64 (-1 + float32 (float32 ((s'.particles i).y / 720) * 2))))) := by
  obtain ⟨s', h0, _, _, h3, _⟩ := updateParticles_spec s hc
  refine ⟨s', h0, ?_, ?_, ?_⟩
  · intro i hi
    have := h3 i hi
    unfold positionAgrees at this
    rw [Nat.mul_comm 2 i]
    exact this
  · simp [uploaded, Nat.mul_comm]
  · unfold render drawArrays
    simp only
    apply List.map_congr_left
    intro i hi
    rw [List.mem_range] at hi
    have := h3 i hi
    unfold positionAgrees at this
    rw [uploaded_getD s' (i * 2) (by omega), uploaded_getD s' (i * 2 + 1) (by omega),
      this.1, this.2]

theorem positions_agree_after_update_witness :
    roundingState.particle_count ≤ MAX_PARTICLES ∧
    ∃ s', updateParticles roundingState = .ok s' ∧
      (∀ i, i < s'.particle_count →
        s'.positions (2 * i) =
          float32 (float64 (-1 + float32 (float32 ((s'.particles i).x / 1280) * 2))) ∧
        s'.positions (2 * i + 1) =
          float32 (-(float64 (-1 + float32 (float32 ((s'.particles i).y / 720) * 2))))) ∧
      (uploaded s').length = 2 * s'.particle_count ∧
      (render s').screen = (List.range s'.particle_count).map fun i =>
        (float32 (float64 (-1 + float32 (float32 ((s'.particles i).x / 1280) * 2))),
         float32 (-(float64 (-1 + float32 (float32 ((s'.particles i).y / 720) * 2))))) :=
  ⟨by decide, positions_agree_after_update roundingState (by decide)⟩

/-- C7 as stated fails: the particle of `topEdgeState` has `y = -49/10 ≤ 0` after its
physics step, yet after the update loop `particle_count` is still 1 and the stepped
particle sits in slot 0. -/
theorem top_edge_particle_not_culled :
    (stepParticle topEdgeState.current_time topEdgeState.last_time topEdgeState.dt
      (topEdgeState.particles 0)).y ≤ 0 ∧
    ∃ s', updateParticles topEdgeState = .ok s' ∧ s'.particle_count = 1 ∧
      s'.particles 0 =
        stepParticle topEdgeState.current_time topEdgeState.last_time topEdgeState.dt
          (topEdgeState.particles 0) ∧
      (s'.particles 0).y = -49 / 10 := by
  have hkeep : ¬ cull (step topEdgeState (topEdgeState.particles 0)) := by
    norm_num [cull, step, stepParticle, topEdgeState, u32_sub, GRAVITY, SCREEN_WIDTH,
      SCREEN_HEIGHT]
  obtain ⟨s', hup, hcnt, hp⟩ := updateParticles_single topEdgeState rfl hkeep
  refine ⟨?_, s', hup, hcnt, hp, ?_⟩
  · norm_num [stepParticle, topEdgeState, GRAVITY]
  · rw [hp]
    norm_num [step, stepParticle, topEdgeState, GRAVITY]

/-- C7 as amended: the update loop removes in that frame every particle that after its
physics step has `x ≤ 0`, `x ≥ 1280` or `y ≥ 720` (left, right or bottom edge); a particle
that after its step has `y ≤ 0` (top edge) is not removed on that account: it is kept
whenever also `life > 0` and `0 < x < 1280`. -/
theorem update_culls_left_right_bottom (s : State)
    (hc : s.particle_count ≤ MAX_PARTICLES) :
    ∃ s', updateParticles s = .ok s' ∧
      ∀ j q, j < s.particle_count →
        q = stepParticle s.current_time s.last_time s.dt (s.particles j) →
        ((q.x ≤ 0 ∨ q.x ≥ 1280 ∨ q.y ≥ 720) →
          q ∉ slots s'.particles 0 s'.particle_count) ∧
        (q.y ≤ 0 → q.life > 0 → 0 < q.x → q.x < 1280 →
          q ∈ slots s'.particles 0 s'.particle_count) := by
  obtain ⟨s', h0, _, h2, _⟩ := updateParticles_spec s hc
  refine ⟨s', h0, ?_⟩
  intro j q hj hq
  have hiff : q ∈ slots s'.particles 0 s'.particle_count ↔
      q ∈ survivors s ↑(slots s.particles 0 s.particle_count) := by
    rw [← h2]
    exact Multiset.mem_coe.symm
  constructor
  · intro hout hmem
    have hk : ¬ cull q := (Multiset.mem_filter.mp (hiff.mp hmem)).2
    apply hk
    unfold cull
    simp only [SCREEN_WIDTH, SCREEN_HEIGHT]
    push_cast
    exact Or.inr hout
  · intro hy hlife hx1 hx2
    apply hiff.mpr
    unfold survivors
    refine Multiset.mem_filter.mpr ⟨Multiset.mem_map.mpr ⟨s.particles j, ?_, hq.symm⟩, ?_⟩
    · exact Multiset.mem_coe.mpr (mem_slots s.particles 0 s.particle_count j
        (Nat.zero_le j) (by omega))
    · unfold cull
      simp only [SCREEN_WIDTH, SCREEN_HEIGHT, not_or, not_le, ge_iff_le]
      push_cast
      exact ⟨hlife, hx1, hx2, by linarith⟩

theorem update_culls_left_right_bottom_witness :
    topEdgeState.particle_count ≤ MAX_PARTICLES ∧
    ∃ s', updateParticles topEdgeState = .ok s' ∧
      ∀ j q, j < topEdgeState.particle_count →
        q = stepParticle topEdgeState.current_time topEdgeState.last_time topEdgeState.dt
          (topEdgeState.particles j) →
        ((q.x ≤ 0 ∨ q.x ≥ 1280 ∨ q.y ≥ 720) →
          q ∉ slots s'.particles 0 s'.particle_count) ∧
        (q.y ≤ 0 → q.life > 0 → 0 < q.x → q.x < 1280 →
          q ∈ slots s'.particles 0 s'.particle_count) :=
  ⟨by decide, update_culls_left_right_bottom topEdgeState (by decide)⟩

/-- C8: for every outcome of the startup steps and every sequence of frames: if
`SDL_Init` returns non-zero `main` returns 1; if it succeeds and window creation returns
NULL `main` returns 1; if those succeed and context creation returns NULL `main` returns
1; if those succeed and `glewInit` fails `main` returns -2; if those succeed and the
allocation returns NULL `main` returns 1. `main` returns 0 exactly when all five steps
succeed and the main loop has ended with `running` false, and it does return 0 when all
five succeed and some frame polls a window-close event. The log of calls holds each step
exactly when the steps before it succeeded, with the value the step returned, so the same
holds of a failure read off the log. -/
theorem main_exit_status (env : Startup) (inputs : List FrameInput) :
    (env.SDL_Init ≠ 0 → (main env inputs).result = .ok 1) ∧
    (env.SDL_Init = 0 → env.window = false → (main env inputs).result = .ok 1) ∧
    (env.SDL_Init = 0 → env.window = true → env.context = false →
      (main env inputs).result = .ok 1) ∧
    (env.SDL_Init = 0 → env.window = true → env.context = true → env.glewInit = false →
      (main env inputs).result = .ok (-2)) ∧
    (env.SDL_Init = 0 → env.window = true → env.context = true → env.glewInit = true →
      env.memory_block = false → (main env inputs).result = .ok 1) ∧
    ((main env inputs).result = .ok 0 ↔
      env.SDL_Init = 0 ∧ env.window = true ∧ env.context = true ∧ env.glewInit = true ∧
      env.memory_block = true ∧
      ∃ s', mainLoop env.rand inputs (initialState env) = .ok s' ∧ s'.running = false) ∧
    (env.SDL_Init = 0 → env.window = true → env.context = true → env.glewInit = true →
      env.memory_block = true →
      (∃ inp ∈ inputs, ∃ e ∈ inp.events,
        e.type = SDL_WINDOWEVENT ∧ e.window_event = SDL_WINDOWEVENT_CLOSE) →
      (main env inputs).result = .ok 0) ∧
    (∀ ret, Call.SDL_Init ret ∈ (main env inputs).calls ↔ ret = env.SDL_Init) ∧
    (∀ b, Call.SDL_CreateWindow b ∈ (main env inputs).calls ↔
      env.SDL_Init = 0 ∧ b = env.window) ∧
    (∀ b, Call.SDL_GL_CreateContext b ∈ (main env inputs).calls ↔
      env.SDL_Init = 0 ∧ env.window = true ∧ b = env.context) ∧
    (∀ b, Call.glewInit b ∈ (main env inputs).calls ↔
      env.SDL_Init = 0 ∧ env.window = true ∧ env.context = true ∧ b = env.glewInit) ∧
    (∀ b, Call.malloc b ∈ (main env inputs).calls ↔
      env.SDL_Init = 0 ∧ env.window = true ∧ env.context = true ∧ env.glewInit = true ∧
      b = env.memory_block) ∧
    ((∃ ret, ret ≠ 0 ∧ Call.SDL_Init ret ∈ (main env inputs).calls) →
      (main env inputs).result = .ok 1) ∧
    (Call.SDL_CreateWindow false ∈ (main env inputs).calls →
      (main env inputs).result = .ok 1) ∧
    (Call.SDL_GL_CreateContext false ∈ (main env inputs).calls →
      (main env inputs).result = .ok 1) ∧
    (Call.malloc false ∈ (main env inputs).calls → (main env inputs).result = .ok 1) ∧
    (Call.glewInit false ∈ (main env inputs).calls →
      (main env inputs).result = .ok (-2)) := by
  unfold main
  split_ifs with h1 h2 h3 h4 h5
  · simp [h1]
  · simp only [ne_eq, not_not] at h1
    simp [h1, h2]
  · simp only [ne_eq, not_not, Bool.not_eq_false] at h1 h2
    simp [h1, h2, h3]
  · simp only [ne_eq, not_not, Bool.not_eq_false] at h1 h2 h3
    simp [h1, h2, h3, h4]
  · simp only [ne_eq, not_not, Bool.not_eq_false] at h1 h2 h3 h4
    simp [h1, h2, h3, h4, h5]
  · simp only [ne_eq, not_not, Bool.not_eq_false] at h1 h2 h3 h4 h5
    simp only [h1, h2, h3, h4, h5]
    refine ⟨by simp, by simp, by simp, by simp, by simp, ?_, ?_, by simp, by simp, by simp,
      by simp, by simp, by simp, by simp, by simp, by simp, by simp⟩
    · cases hm : mainLoop env.rand inputs (initialState env) with
      | error f => simp [bind, Except.bind]
      | ok s1 =>
        have := mainLoop_ok_running env.rand inputs _ _ hm
        simp [bind, Except.bind, pure, Except.pure, this]
    · intro _ _ _ _ _ hclose
      obtain ⟨s', hs', _⟩ := mainLoop_ends env.rand inputs (initialState env)
        (Nat.zero_le _) hclose
      simp [hs', bind, Except.bind, pure, Except.pure]

theorem main_exit_status_witness :
    (sdlFailStartup.SDL_Init ≠ 0 ∧ (main sdlFailStartup [closeFrame]).result = .ok 1) ∧
    (glewFailStartup.SDL_Init = 0 ∧ glewFailStartup.window = true ∧
      glewFailStartup.context = true ∧ glewFailStartup.glewInit = false ∧
      (main glewFailStartup [closeFrame]).result = .ok (-2)) ∧
    (Call.glewInit false ∈ (main glewFailStartup []).calls ∧
      (main glewFailStartup []).result = .ok (-2)) ∧
    (demoStartup.SDL_Init = 0 ∧ demoStartup.window = true ∧ demoStartup.context = true ∧
      demoStartup.glewInit = true ∧ demoStartup.memory_block = true ∧
      (main demoStartup [closeFrame]).result = .ok 0) :=
  ⟨⟨by decide, (main_exit_status sdlFailStartup [closeFrame]).1 (by decide)⟩,
   ⟨rfl, rfl, rfl, rfl,
     (main_exit_status glewFailStartup [closeFrame]).2.2.2.1 rfl rfl rfl rfl⟩,
   ⟨by decide, (main_exit_status glewFailStartup []).2.2.2.2.2.2.2.2.2.2.2.2.2.2.2.2
      (by decide)⟩,
   ⟨rfl, rfl, rfl, rfl, rfl,
     (main_exit_status demoStartup [closeFrame]).2.2.2.2.2.2.1 rfl rfl rfl rfl rfl
      ⟨closeFrame, List.mem_cons_self _ _, _, List.mem_cons_self _ _, rfl, rfl⟩⟩⟩

/-- C9: the one-particle update (lines 243-246 on `particles[i]`) sets
`dy' = dy + 1000*dt`, `x' = x + dx*dt` and `y' = y + dy'*dt`, with the new `dy'`, and
leaves `dx` unchanged; so for `dt > 0` the vertical velocity strictly increases and the
horizontal velocity does not change. -/
theorem integrate_semi_implicit_euler (s : State) (i : Nat) (hi : i < MAX_PARTICLES) :
    ∃ s', integrate s i = .ok s' ∧
      (s'.particles i).dy = (s.particles i).dy + 1000 * s.dt ∧
      (s'.particles i).x = (s.particles i).x + (s.particles i).dx * s.dt ∧
      (s'.particles i).y = (s.particles i).y + (s'.particles i).dy * s.dt ∧
      (s'.particles i).y = (s.particles i).y + ((s.particles i).dy + 1000 * s.dt) * s.dt ∧
      (s'.particles i).dx = (s.particles i).dx ∧
      (0 < s.dt → (s.particles i).dy < (s'.particles i).dy) := by
  refine ⟨_, integrate_eq s i hi, ?_, ?_, ?_, ?_, ?_, ?_⟩
  · simp [stepParticle, GRAVITY]
  · simp [stepParticle]
  · simp [stepParticle]
  · simp [stepParticle, GRAVITY]
  · simp [stepParticle]
  · intro hdt
    simp only [Function.update_same, stepParticle, GRAVITY]
    linarith

theorem integrate_semi_implicit_euler_witness :
    (0 : Nat) < MAX_PARTICLES ∧
    ∃ s', integrate demoState 0 = .ok s' ∧
      (s'.particles 0).dy = (demoState.particles 0).dy + 1000 * demoState.dt ∧
      (s'.particles 0).x =
        (demoState.particles 0).x + (demoState.particles 0).dx * demoState.dt ∧
      (s'.particles 0).y = (demoState.particles 0).y + (s'.particles 0).dy * demoState.dt ∧
      (s'.particles 0).y =
        (demoState.particles 0).y +
          ((demoState.particles 0).dy + 1000 * demoState.dt) * demoState.dt ∧
      (s'.particles 0).dx = (demoState.particles 0).dx ∧
      (0 < demoState.dt → (demoState.particles 0).dy < (s'.particles 0).dy) :=
  ⟨by decide, integrate_semi_implicit_euler demoState 0 (by decide)⟩

/-- C10: from a state with `particle_count ≤ 40768`, with every array access checked
against the allocated block (`particles` below 40768, `positions` below 2*40768) and
`particle_count-1` checked against underflow, the spawn blocks, every pass of the update
loop at an `i < particle_count` and the update loop as a whole finish without a fault; a
pass leaves `i ≤ particle_count ≤ 40768` for the next one. -/
theorem array_accesses_in_bounds (rand : Nat → Nat) (s : State)
    (hc : s.particle_count ≤ 40768) :
    (∃ s', spawnLeft rand s = .ok s') ∧
    (∃ s', spawnRight rand s = .ok s') ∧
    (∀ i, i < s.particle_count →
      ∃ s' i', updateBody s i = .ok (s', i') ∧ i' ≤ s'.particle_count ∧
        s'.particle_count ≤ 40768) ∧
    (∀ i, i < s.particle_count → ∃ s', removeAt s i = .ok s') ∧
    (∃ s', updateParticles s = .ok s') ∧
    (∀ (ps : Nat → Particle) (p : Particle) (i : Nat), 40768 ≤ i →
      getParticle ps i = .error .outOfBounds ∧ setParticle ps i p = .error .outOfBounds) ∧
    (∀ (pos : Nat → ℚ) (v : ℚ) (k : Nat), 2 * 40768 ≤ k →
      getPosition pos k = .error .outOfBounds ∧ setPosition pos k v = .error .outOfBounds) ∧
    pred_count 0 = .error .underflow := by
  refine ⟨?_, ?_, ?_, ?_, ?_, ?_, ?_, rfl⟩
  · obtain ⟨s', h, _⟩ := spawnLeft_spec rand s hc
    exact ⟨s', h⟩
  · obtain ⟨s', h, _⟩ := spawnRight_spec rand s hc
    exact ⟨s', h⟩
  · intro i hi
    by_cases h : cull (step s (s.particles i))
    · obtain ⟨s2, hb, hcnt, _⟩ := updateBody_cull s i hi hc h
      exact ⟨s2, i, hb, by omega, by omega⟩
    · obtain ⟨s2, hb, hcnt, _⟩ := updateBody_keep s i hi hc h
      exact ⟨s2, i + 1, hb, by omega, by omega⟩
  · intro i hi
    exact ⟨_, removeAt_eq s i hi hc⟩
  · obtain ⟨s', h, _⟩ := updateParticles_spec s hc
    exact ⟨s', h⟩
  · intro ps p i hi
    have : ¬ i < MAX_PARTICLES := by
      unfold MAX_PARTICLES
      omega
    simp [getParticle, setParticle, this]
  · intro pos v k hk
    have : ¬ k < MAX_PARTICLES * 2 := by
      unfold MAX_PARTICLES
      omega
    simp [getPosition, setPosition, this]

theorem array_accesses_in_bounds_witness :
    demoState.particle_count ≤ 40768 ∧
    ((∃ s', spawnLeft demoRand demoState = .ok s') ∧
    (∃ s', spawnRight demoRand demoState = .ok s') ∧
    (∀ i, i < demoState.particle_count →
      ∃ s' i', updateBody demoState i = .ok (s', i') ∧ i' ≤ s'.particle_count ∧
        s'.particle_count ≤ 40768) ∧
    (∀ i, i < demoState.particle_count → ∃ s', removeAt demoState i = .ok s') ∧
    (∃ s', updateParticles demoState = .ok s') ∧
    (∀ (ps : Nat → Particle) (p : Particle) (i : Nat), 40768 ≤ i →
      getParticle ps i = .error .outOfBounds ∧ setParticle ps i p = .error .outOfBounds) ∧
    (∀ (pos : Nat → ℚ) (v : ℚ) (k : Nat), 2 * 40768 ≤ k →
      getPosition pos k = .error .outOfBounds ∧ setPosition pos k v = .error .outOfBounds) ∧
    pred_count 0 = .error .underflow) :=
  ⟨by decide, array_accesses_in_bounds demoRand demoState (by decide)⟩

end SimpleParticleSystem
